import Mathlib

/-!
Verification of the chat-backend message-lifecycle, moderation and
websocket-registry code against its natural-language specification.

The definitions below are a shallow embedding of the JavaScript sources:

* `src/models/Message.js` (message schema methods `flag`, `unflag`,
  `softDelete`, `restore`, statics `getChannelMessages`)
* `src/models/ChannelMember.js` (statics `isMember`, `hasRole`)
* `src/services/messageService.js` (`sendMessage`, `getChannelMessages`,
  `getMessageById`, `updateMessage`, `deleteMessage`, `flagMessage`,
  `unflagMessage`, `searchMessages`, `restoreMessage`)
* `src/middleware/validation.js` (`validateMessage`)
* the content-moderation middleware chain (`contentLengthValidation` with
  the repeated-character regex `/(.)\1{10,}/`, from the module exporting
  `profanityFilter`, `spamPrevention`, `contentLengthValidation`,
  `urlValidation`, `contentModeration`)
* the websocket handler (`setupWebSocket`: the `connection`, `join_channel`,
  `leave_channel`, `typing_start`, `typing_stop`, `new_message`,
  `delete_message`, `unflag_message` and `disconnect` handlers, with the
  module-level maps `connectedUsers`, `userChannels`, `typingUsers`)

Mongo documents are embedded as Lean structures, object ids as `Nat`,
timestamps as `Int` milliseconds, and collections as lists queried with
`List.find?` / `List.filter`, mirroring the `findById` / `find` calls in
the source.  Fallible service operations become `Except`-valued functions
whose error constructors mirror the thrown error messages.
-/

namespace Chat

/-- Channel-membership roles, from the `role` enum of
`channelMemberSchema` in `src/models/ChannelMember.js`. -/
inductive Role where
  | member
  | moderator
  | admin
deriving DecidableEq, Repr

/-- Global user roles, from the `role` enum of `userSchema`
(`user`, `moderator`, `admin`). -/
inductive UserRole where
  | user
  | moderator
  | admin
deriving DecidableEq, Repr

/-- Flag reasons, from the `flag_reason` enum of `messageSchema`. -/
inductive FlagReason where
  | inappropriate
  | spam
  | harassment
  | other
deriving DecidableEq, Repr

/-- Message types, from the `message_type` enum of `messageSchema`. -/
inductive MessageType where
  | text
  | image
  | file
  | system
deriving DecidableEq, Repr

/-- A `Message` document (`src/models/Message.js`).  Ids are `Nat`,
timestamps `Int` milliseconds since the epoch. -/
structure Message where
  id : Nat
  channel_id : Nat
  user_id : Nat
  content : String
  message_type : MessageType
  is_flagged : Bool
  flag_reason : Option FlagReason
  flagged_by : Option Nat
  flagged_at : Option Int
  is_deleted : Bool
  deleted_by : Option Nat
  deleted_at : Option Int
  reply_to : Option Nat
  created_at : Int
  updated_at : Int
deriving DecidableEq, Repr

/-- A `Channel` document (channel schema): only the fields the message
operations consult. -/
structure Channel where
  id : Nat
  is_private : Bool
deriving DecidableEq, Repr

/-- A `ChannelMember` document (`src/models/ChannelMember.js`): only the
fields the membership statics consult. -/
structure ChannelMember where
  channel_id : Nat
  user_id : Nat
  role : Role
  is_active : Bool
deriving DecidableEq, Repr

/-- A `User` document (user schema): only the fields the websocket
handlers consult. -/
structure User where
  id : Nat
  role : UserRole
deriving DecidableEq, Repr

/-- Error kinds thrown by the message service; each constructor mirrors one
`throw new Error(...)` message in `src/services/messageService.js`. -/
inductive MsgError where
  /-- thrown message: Channel not found -/
  | channelNotFound
  /-- thrown message: Access denied. You are not a member of this channel. -/
  | accessDenied
  /-- thrown message: Invalid reply message -/
  | invalidReply
  /-- thrown message: Message not found -/
  | messageNotFound
  /-- thrown message: You can only edit your own messages -/
  | forbiddenEdit
  /-- thrown message: Messages can only be edited within 5 minutes of posting -/
  | windowExpired
  /-- thrown message: You can only delete your own messages or need moderator privileges -/
  | forbiddenDelete
  /-- thrown message: Message is already flagged -/
  | alreadyFlagged
  /-- thrown message: Message is not flagged -/
  | notFlagged
  /-- thrown message: Message is not deleted -/
  | notDeleted
  /-- websocket only: Moderator privileges required -/
  | moderatorRequired
deriving DecidableEq, Repr

/-! Store primitives: `Model.findById(id)` on a collection embedded as a list. -/

/-- Query `Message.findById(messageId)` over a message collection. -/
def findMessage (msgs : List Message) (messageId : Nat) : Option Message :=
  msgs.find? (fun m => m.id == messageId)

/-- Query `Channel.findById(channelId)` over a channel collection. -/
def findChannel (channels : List Channel) (channelId : Nat) : Option Channel :=
  channels.find? (fun c => c.id == channelId)

/-- Query `User.findById(userId)` over a user collection. -/
def findUser (users : List User) (userId : Nat) : Option User :=
  users.find? (fun u => u.id == userId)

/-- Query `ChannelMember.findOne({channel_id, user_id, is_active: true})`, the
query shared by `isMember`, `getUserRole` and `hasRole` in
`src/models/ChannelMember.js`. -/
def findActiveMember (members : List ChannelMember) (channelId userId : Nat) :
    Option ChannelMember :=
  members.find? (fun m =>
    m.channel_id == channelId && m.user_id == userId && m.is_active)

/-- Static `channelMemberSchema.statics.isMember`: true when an active membership
record exists. -/
def isMember (members : List ChannelMember) (channelId userId : Nat) : Bool :=
  (findActiveMember members channelId userId).isSome

/-- The `roleHierarchy` table inside `channelMemberSchema.statics.hasRole`:
member ↦ 1, moderator ↦ 2, admin ↦ 3. -/
def roleHierarchy : Role → Nat
  | .member => 1
  | .moderator => 2
  | .admin => 3

/-- Static `channelMemberSchema.statics.hasRole(channelId, userId, requiredRole)`:
finds the active membership and compares role ranks
(`roleHierarchy[member.role] >= roleHierarchy[requiredRole]`). -/
def hasRole (members : List ChannelMember) (channelId userId : Nat)
    (requiredRole : Role) : Bool :=
  match findActiveMember members channelId userId with
  | none => false
  | some m => roleHierarchy requiredRole ≤ roleHierarchy m.role

/-- Persisting a mutated document (`message.save()`): replace the document
with the matching id in the collection. -/
def saveMessage (msgs : List Message) (m : Message) : List Message :=
  msgs.map (fun x => if x.id == m.id then m else x)

/-! Message schema methods (`src/models/Message.js`) -/

/-- Method `messageSchema.methods.flag(reason, flaggedBy)`: sets `is_flagged`,
`flag_reason`, `flagged_by`, `flagged_at`. -/
def Message.flagDoc (m : Message) (reason : FlagReason) (flaggedBy : Nat)
    (now : Int) : Message :=
  { m with
    is_flagged := true
    flag_reason := some reason
    flagged_by := some flaggedBy
    flagged_at := some now }

/-- Method `messageSchema.methods.unflag()`: clears all flag fields. -/
def Message.unflagDoc (m : Message) : Message :=
  { m with
    is_flagged := false
    flag_reason := none
    flagged_by := none
    flagged_at := none }

/-- Method `messageSchema.methods.softDelete(deletedBy)`. -/
def Message.softDeleteDoc (m : Message) (deletedBy : Nat) (now : Int) : Message :=
  { m with
    is_deleted := true
    deleted_by := some deletedBy
    deleted_at := some now }

/-- Method `messageSchema.methods.restore()`, embedded as `restoreDoc`. -/
def Message.restoreDoc (m : Message) : Message :=
  { m with
    is_deleted := false
    deleted_by := none
    deleted_at := none }


/-! Message service operations (`src/services/messageService.js`).  Each
function takes the collections it queries, the acting parameters, and an
explicit `now` timestamp standing for `Date.now()` / `new Date()`. -/

/-- Sorting `.sort({ created_at: -1 })`: insert into a descending-by-time list. -/
def insertDesc (m : Message) : List Message → List Message
  | [] => [m]
  | x :: t => if x.created_at ≤ m.created_at then m :: x :: t else x :: insertDesc m t

/-- Sorting `.sort({ created_at: -1 })` of a whole result list. -/
def sortDesc : List Message → List Message
  | [] => []
  | x :: t => insertDesc x (sortDesc t)

/-- Pagination `.skip(skip).limit(limit)` with `skip = (page - 1) * limit`. -/
def paginate (page limit : Nat) (l : List Message) : List Message :=
  (l.drop ((page - 1) * limit)).take limit

/-- Service `sendMessage(messageData)`: verifies the channel, private-channel
membership, and the reply target (`replyTo` must resolve to a message in the
same channel), then creates and saves the message.  On success it returns the
extended collection together with the new document. -/
def sendMessage (channels : List Channel) (members : List ChannelMember)
    (msgs : List Message) (channelId userId : Nat) (content : String)
    (replyTo : Option Nat) (messageType : MessageType) (newId : Nat)
    (now : Int) : Except MsgError (List Message × Message) :=
  match findChannel channels channelId with
  | none => .error .channelNotFound
  | some channel =>
    if channel.is_private && !(isMember members channelId userId) then
      .error .accessDenied
    else
      let replyOk : Bool :=
        match replyTo with
        | none => true
        | some rid =>
          match findMessage msgs rid with
          | none => false
          | some replyMessage => replyMessage.channel_id == channelId
      if !replyOk then .error .invalidReply
      else
        let message : Message :=
          { id := newId
            channel_id := channelId
            user_id := userId
            content := content
            message_type := messageType
            is_flagged := false
            flag_reason := none
            flagged_by := none
            flagged_at := none
            is_deleted := false
            deleted_by := none
            deleted_at := none
            reply_to := replyTo
            created_at := now
            updated_at := now }
        .ok (msgs ++ [message], message)

/-- Service `getChannelMessages(channelId, options)`: verifies the channel and
private-channel membership, then returns
`Message.find({channel_id, is_deleted: false})` sorted newest-first with
`skip`/`limit` pagination (the `getPublicInfo` projection is omitted: it
keeps every field the claims mention). -/
def getChannelMessages (channels : List Channel) (members : List ChannelMember)
    (msgs : List Message) (channelId userId : Nat) (page limit : Nat) :
    Except MsgError (List Message) :=
  match findChannel channels channelId with
  | none => .error .channelNotFound
  | some channel =>
    if channel.is_private && !(isMember members channelId userId) then
      .error .accessDenied
    else
      .ok (paginate page limit (sortDesc (msgs.filter
        (fun m => m.channel_id == channelId && m.is_deleted == false))))

/-- Service `getMessageById(messageId, userId)`: finds the message and checks
channel access; note that it does NOT filter on `is_deleted`. -/
def getMessageById (channels : List Channel) (members : List ChannelMember)
    (msgs : List Message) (messageId userId : Nat) : Except MsgError Message :=
  match findMessage msgs messageId with
  | none => .error .messageNotFound
  | some message =>
    match findChannel channels message.channel_id with
    | none => .error .channelNotFound
    | some channel =>
      if channel.is_private && !(isMember members message.channel_id userId) then
        .error .accessDenied
      else
        .ok message

/-- Service `updateMessage(messageId, updateData, userId)`: author-only edit,
rejected with the window error when
`message.created_at < new Date(Date.now() - 5 * 60 * 1000)`. -/
def updateMessage (msgs : List Message) (messageId : Nat) (content : String)
    (userId : Nat) (now : Int) : Except MsgError Message :=
  match findMessage msgs messageId with
  | none => .error .messageNotFound
  | some message =>
    if message.user_id != userId then .error .forbiddenEdit
    else
      let fiveMinutesAgo : Int := now - 5 * 60 * 1000
      if message.created_at < fiveMinutesAgo then .error .windowExpired
      else .ok { message with content := content, updated_at := now }

/-- Service `deleteMessage(messageId, userId)`: allows the author or a channel
moderator; the source hardcodes `const isModerator = false` with the comment
"This should come from user context", so the global role is never consulted. -/
def deleteMessage (members : List ChannelMember) (msgs : List Message)
    (messageId userId : Nat) (now : Int) : Except MsgError (List Message) :=
  match findMessage msgs messageId with
  | none => .error .messageNotFound
  | some message =>
    let isAuthor : Bool := message.user_id == userId
    let isModerator : Bool := false
    let hasChannelModeratorRole : Bool :=
      hasRole members message.channel_id userId .moderator
    if !isAuthor && !isModerator && !hasChannelModeratorRole then
      .error .forbiddenDelete
    else
      .ok (saveMessage msgs (message.softDeleteDoc userId now))

/-- Service `flagMessage(messageId, flagData, userId)`: fails when the message
is absent or already flagged, otherwise applies `message.flag(reason, userId)`. -/
def flagMessage (msgs : List Message) (messageId : Nat) (reason : FlagReason)
    (userId : Nat) (now : Int) : Except MsgError (List Message) :=
  match findMessage msgs messageId with
  | none => .error .messageNotFound
  | some message =>
    if message.is_flagged then .error .alreadyFlagged
    else .ok (saveMessage msgs (message.flagDoc reason userId now))

/-- Service `unflagMessage(messageId)`: fails when the message is absent or not
flagged, otherwise applies `message.unflag()`.  The service receives no acting
user and performs no role check. -/
def unflagMessage (msgs : List Message) (messageId : Nat) :
    Except MsgError (List Message) :=
  match findMessage msgs messageId with
  | none => .error .messageNotFound
  | some message =>
    if !message.is_flagged then .error .notFlagged
    else .ok (saveMessage msgs message.unflagDoc)

/-- The HTTP ingress for unflagging (`messageController.unflagMessage`): the
controller calls `messageService.unflagMessage(req.params.id)` and never
passes `req.user`, so the result is independent of the acting user. -/
def unflagMessageHttp (_actor : User) (msgs : List Message) (messageId : Nat) :
    Except MsgError (List Message) :=
  unflagMessage msgs messageId

/-- Prefix test on character lists (used to embed the `$regex` containment
test executably). -/
def charsPrefixOf : List Char → List Char → Bool
  | [], _ => true
  | _ :: _, [] => false
  | a :: as, b :: bs => a == b && charsPrefixOf as bs

/-- Substring test on character lists. -/
def charsInfixOf (p : List Char) : List Char → Bool
  | [] => p.isEmpty
  | b :: t => charsPrefixOf p (b :: t) || charsInfixOf p t

/-- Service `searchMessages(channelId, options)`: the
`$regex: query, $options: i` condition, embedded as a lower-cased substring
test for regex-free query strings. -/
def contentMatches (query : String) (m : Message) : Bool :=
  charsInfixOf (query.toList.map Char.toLower)
    (m.content.toList.map Char.toLower)

/-- Service `searchMessages` result assembly. -/
def searchMessages (channels : List Channel) (members : List ChannelMember)
    (msgs : List Message) (channelId userId : Nat) (query : String)
    (page limit : Nat) : Except MsgError (List Message) :=
  if query == "" then .error .messageNotFound
  else
    match findChannel channels channelId with
    | none => .error .channelNotFound
    | some channel =>
      if channel.is_private && !(isMember members channelId userId) then
        .error .accessDenied
      else
        .ok (paginate page limit (sortDesc (msgs.filter
          (fun m => m.channel_id == channelId && contentMatches query m
            && m.is_deleted == false))))

/-- Service `restoreMessage(messageId, userId)`: fails when the message is
absent or not soft-deleted, otherwise applies `message.restore()`.  The
`userId` parameter is received but never used for authorization. -/
def restoreMessage (msgs : List Message) (messageId _userId : Nat) :
    Except MsgError (List Message) :=
  match findMessage msgs messageId with
  | none => .error .messageNotFound
  | some message =>
    if !message.is_deleted then .error .notDeleted
    else .ok (saveMessage msgs message.restoreDoc)

/-! Websocket registry (the `setupWebSocket` handler).  The module-level
JavaScript maps `connectedUsers`, `userChannels` and `typingUsers` become
association lists with unique-key update semantics; `closedHandles` records
every connection handle on which the server would call a transport close
(the source code never performs such a call). -/

/-- Lookup in a JavaScript `Map` embedded as an association list. -/
def mapLookup {α : Type} (l : List (Nat × α)) (k : Nat) : Option α :=
  match l with
  | [] => none
  | (k0, v) :: t => if k0 == k then some v else mapLookup t k

/-- Update `map.set(k, v)`: replace the existing entry or append a new one. -/
def mapSet {α : Type} (l : List (Nat × α)) (k : Nat) (v : α) : List (Nat × α) :=
  match l with
  | [] => [(k, v)]
  | (k0, v0) :: t => if k0 == k then (k, v) :: t else (k0, v0) :: mapSet t k v

/-- Removal `map.delete(k)`: drop the entry with key `k` (JavaScript `Map`
keys are unique, so dropping every pair with key `k` is the same removal). -/
def mapDelete {α : Type} (l : List (Nat × α)) (k : Nat) : List (Nat × α) :=
  l.filter (fun p => p.1 != k)

/-- Update `set.add(x)` on a JavaScript `Set` embedded as a duplicate-free list. -/
def setAdd (s : List Nat) (x : Nat) : List Nat :=
  if s.contains x then s else s ++ [x]

/-- Removal `set.delete(x)`. -/
def setRemove (s : List Nat) (x : Nat) : List Nat :=
  s.filter (fun y => y != x)

/-- The in-memory websocket registry state. -/
structure WsState where
  connectedUsers : List (Nat × Nat)
  userChannels : List (Nat × List Nat)
  typingUsers : List (Nat × List Nat)
  closedHandles : List Nat
deriving DecidableEq, Repr

/-- The state before any connection. -/
def WsState.empty : WsState := ⟨[], [], [], []⟩

/-- Channels auto-joined at connection time:
`ChannelMember.find({user_id, is_active: true})` mapped to channel ids. -/
def membershipChannels (members : List ChannelMember) (userId : Nat) : List Nat :=
  (members.filter (fun m => m.user_id == userId && m.is_active)).map
    (fun m => m.channel_id)

/-- The `connection` handler: stores the socket in `connectedUsers`
(overwriting any entry a prior handshake for the same identity installed),
resets `userChannels[userId]` and fills it with the user's membership
channels.  No transport close of a previously stored socket occurs anywhere
in the handler, so `closedHandles` is left unchanged. -/
def register (members : List ChannelMember) (s : WsState)
    (userId socketId : Nat) : WsState :=
  { s with
    connectedUsers := mapSet s.connectedUsers userId socketId
    userChannels := mapSet s.userChannels userId
      (membershipChannels members userId) }

/-- The typing set of a channel (empty when the map has no entry). -/
def typingOf (s : WsState) (channelId : Nat) : List Nat :=
  (mapLookup s.typingUsers channelId).getD []

/-- The `typing_start` insertion: create the channel entry when missing, then
add the user. -/
def addTyping (t : List (Nat × List Nat)) (channelId userId : Nat) :
    List (Nat × List Nat) :=
  match mapLookup t channelId with
  | none => mapSet t channelId (setAdd [] userId)
  | some l => mapSet t channelId (setAdd l userId)

/-- The `typing_stop` removal: delete the user from the channel entry and drop
the entry when its set becomes empty. -/
def removeTyping (t : List (Nat × List Nat)) (channelId userId : Nat) :
    List (Nat × List Nat) :=
  match mapLookup t channelId with
  | none => t
  | some l =>
    let rest := setRemove l userId
    if rest.isEmpty then mapDelete t channelId else mapSet t channelId rest

/-- The registry-relevant websocket events. -/
inductive WsEvent where
  | connect (userId socketId : Nat)
  | joinChannel (userId channelId : Nat)
  | leaveChannel (userId channelId : Nat)
  | typingStart (userId channelId : Nat)
  | typingStop (userId channelId : Nat)
  | newMessage (userId channelId : Nat)
  | disconnect (userId : Nat)
deriving DecidableEq, Repr

/-- One step of the websocket registry, one case per socket event handler in
`setupWebSocket`.  Handlers whose body throws are caught by their
`try`/`catch` and leave the registry unchanged.

* `join_channel` calls `channel.isMember(...)`, a method the channel schema
  does not define, so the handler always lands in its catch branch: a no-op
  on the registry.
* `leave_channel` removes the channel from `userChannels` only; it does not
  touch `typingUsers`.
* `typing_start` inserts only when `userChannels.get(userId).has(channelId)`.
* `typing_stop` removes unconditionally.
* `new_message` (membership guard `!channel || !isMember` embedded as the
  `isMember` test; the message persistence itself is the `sendMessage`
  service logic and is not tracked in this registry state) removes the
  sender from the channel's typing set after a successful send.
* `disconnect` removes the user from the typing set of each channel in
  `userChannels[userId]`, then deletes both map entries. -/
def wsStep (members : List ChannelMember) (s : WsState) : WsEvent → WsState
  | .connect userId socketId => register members s userId socketId
  | .joinChannel _ _ => s
  | .leaveChannel userId channelId =>
    match mapLookup s.userChannels userId with
    | none => s
    | some chans =>
      { s with
        userChannels := mapSet s.userChannels userId (setRemove chans channelId) }
  | .typingStart userId channelId =>
    match mapLookup s.userChannels userId with
    | none => s
    | some chans =>
      if chans.contains channelId then
        { s with typingUsers := addTyping s.typingUsers channelId userId }
      else s
  | .typingStop userId channelId =>
    { s with typingUsers := removeTyping s.typingUsers channelId userId }
  | .newMessage userId channelId =>
    if isMember members channelId userId then
      { s with typingUsers := removeTyping s.typingUsers channelId userId }
    else s
  | .disconnect userId =>
    let chans := (mapLookup s.userChannels userId).getD []
    { s with
      typingUsers := chans.foldl (fun t c => removeTyping t c userId) s.typingUsers
      connectedUsers := mapDelete s.connectedUsers userId
      userChannels := mapDelete s.userChannels userId }

/-- Run a sequence of websocket events from the initial empty registry. -/
def wsRun (members : List ChannelMember) (events : List WsEvent) : WsState :=
  events.foldl (wsStep members) WsState.empty

/-- The `unflag_message` websocket handler: requires the acting user's global
role to be moderator or admin, then performs the same lookup/flag-state
checks and `message.unflag()` call as the service `unflagMessage`. -/
def wsUnflagMessage (actor : User) (msgs : List Message) (messageId : Nat) :
    Except MsgError (List Message) :=
  if actor.role != .moderator && actor.role != .admin then
    .error .moderatorRequired
  else
    unflagMessage msgs messageId

/-! Message-content validation (`validateMessage` in
`src/middleware/validation.js`) and the spec-modelled moderation filter. -/

/-- Outcome of the Joi `content` rule in `validateMessage`. -/
inductive ContentVerdict where
  /-- Joi message: Message cannot be empty -/
  | pass
  | contentEmpty
  /-- Joi message: Message cannot exceed 2000 characters -/
  | contentTooLong
deriving DecidableEq, Repr

/-- The Joi rule `content: Joi.string().trim().min(1).max(2000).required()`
from `validateMessage`: Joi trims the value (convert mode), then checks the
length bounds. -/
def validateMessageContent (content : String) : ContentVerdict :=
  let trimmed := content.trim
  if trimmed.length < 1 then .contentEmpty
  else if 2000 < trimmed.length then .contentTooLong
  else .pass

/-- Length of the run of characters equal to `c` at the front of the list. -/
def countRun (c : Char) : List Char → Nat
  | [] => 0
  | d :: t => if d == c then 1 + countRun c t else 0

/-- Line terminators: the characters a JavaScript regex dot (without the
dotAll flag) does NOT match — newline, carriage return, U+2028 line
separator, U+2029 paragraph separator. -/
def isLineTerminator (c : Char) : Bool :=
  c == Char.ofNat 10 || c == Char.ofNat 13 ||
    c == Char.ofNat 0x2028 || c == Char.ofNat 0x2029

/-- Whether the regex `/(.)\1{10,}/` of `contentLengthValidation` matches:
some suffix starts with a character the dot can match (not a line
terminator) followed by at least 10 more copies of itself. -/
def hasRepeatedRun : List Char → Bool
  | [] => false
  | c :: t => (!isLineTerminator c && 10 ≤ countRun c t) || hasRepeatedRun t

/-- Outcome of the length/repetition moderation filter, one constructor per
distinct error kind. -/
inductive ModerationVerdict where
  | pass
  | lengthExceeded
  | repeatedChars
deriving DecidableEq, Repr

/-- The `contentLengthValidation` middleware of the content-moderation chain
(the module exporting `contentModeration`): rejects content whose length
exceeds 2000 with the length error, then content matched by the
repeated-character regex `/(.)\1{10,}/` with the repetition error. -/
def contentLengthValidation (content : String) : ModerationVerdict :=
  if 2000 < content.length then .lengthExceeded
  else if hasRepeatedRun content.toList then .repeatedChars
  else .pass

/-! Helper lemmas about the store and registry embeddings. -/

/-- Unfolding `mapLookup` on a cons cell. -/
theorem mapLookup_cons {α : Type} (p : Nat × α) (t : List (Nat × α)) (k : Nat) :
    mapLookup (p :: t) k = if p.1 == k then some p.2 else mapLookup t k := rfl

/-- Unfolding `mapSet` on a cons cell. -/
theorem mapSet_cons {α : Type} (p : Nat × α) (t : List (Nat × α)) (k : Nat)
    (v : α) :
    mapSet (p :: t) k v =
      if p.1 == k then (k, v) :: t else p :: mapSet t k v := rfl

/-- Finding by id after a save that keeps the id returns the saved document. -/
theorem findMessage_saveMessage (msgs : List Message) (m m' : Message)
    (hfind : findMessage msgs m.id = some m) (hid : m'.id = m.id) :
    findMessage (saveMessage msgs m') m.id = some m' := by
  induction msgs with
  | nil => simp [findMessage] at hfind
  | cons x t ih =>
    unfold findMessage saveMessage at *
    simp only [List.map_cons]
    by_cases hx : x.id = m.id
    · have hhead : (if (x.id == m'.id) = true then m' else x) = m' := by
        simp [hx, hid]
      rw [hhead]
      exact List.find?_cons_of_pos _ (by simp [hid])
    · have hhead : (if (x.id == m'.id) = true then m' else x) = x := by
        simp [hid, hx]
      rw [hhead]
      rw [List.find?_cons_of_neg _ (by simp [hx])]
      rw [List.find?_cons_of_neg _ (by simp [hx])] at hfind
      exact ih hfind

/-- Lookup after `map.set` of the same key. -/
theorem mapLookup_mapSet_self {α : Type} (l : List (Nat × α)) (k : Nat) (v : α) :
    mapLookup (mapSet l k v) k = some v := by
  induction l with
  | nil => simp [mapSet, mapLookup]
  | cons p t ih =>
    unfold mapSet
    by_cases hp : p.1 = k
    · simp [hp, mapLookup]
    · simp [hp, mapLookup, ih]

/-- Lookup after `map.set` of a different key. -/
theorem mapLookup_mapSet_other {α : Type} (l : List (Nat × α)) (k k' : Nat)
    (v : α) (h : k' ≠ k) : mapLookup (mapSet l k' v) k = mapLookup l k := by
  induction l with
  | nil => simp [mapSet, mapLookup, h]
  | cons p t ih =>
    unfold mapSet
    by_cases hp : p.1 = k'
    · have hpk : p.1 ≠ k := by rw [hp]; exact h
      simp [hp, mapLookup, h, hpk]
    · simp [hp, mapLookup, ih]

/-- Lookup after `map.delete` of the same key. -/
theorem mapLookup_mapDelete_self {α : Type} (l : List (Nat × α)) (k : Nat) :
    mapLookup (mapDelete l k) k = none := by
  induction l with
  | nil => rfl
  | cons p t ih =>
    unfold mapDelete at *
    rw [List.filter_cons]
    by_cases hp : p.1 = k
    · simp [hp, ih]
    · have h1 : (p.1 != k) = true := by simp [hp]
      simp only [h1, if_pos]
      unfold mapLookup
      simp [hp, ih]

/-- Lookup after `map.delete` of a different key. -/
theorem mapLookup_mapDelete_other {α : Type} (l : List (Nat × α)) (k k' : Nat)
    (h : k' ≠ k) : mapLookup (mapDelete l k') k = mapLookup l k := by
  induction l with
  | nil => rfl
  | cons p t ih =>
    unfold mapDelete at *
    rw [List.filter_cons]
    by_cases hp : p.1 = k'
    · have hpk : p.1 ≠ k := by rw [hp]; exact h
      have h1 : (p.1 != k') = false := by simp [hp]
      simp only [h1, Bool.false_eq_true, if_false]
      rw [ih, mapLookup_cons]
      simp [hpk]
    · have h1 : (p.1 != k') = true := by simp [hp]
      simp only [h1, if_pos]
      unfold mapLookup
      by_cases hpk : p.1 = k
      · simp [hpk]
      · simp [hpk, ih]

/-- Number of entries of a given key in the connection map. -/
def countKey (l : List (Nat × Nat)) (k : Nat) : Nat :=
  (l.filter (fun p => p.1 == k)).length

/-- Update `map.set` leaves exactly one entry for the key when the map had
none, and never adds a second. -/
theorem countKey_mapSet (l : List (Nat × Nat)) (k : Nat) (v : Nat) :
    countKey (mapSet l k v) k = max 1 (countKey l k) := by
  induction l with
  | nil => simp [mapSet, countKey]
  | cons p t ih =>
    by_cases hp : p.1 = k
    · have hset : mapSet (p :: t) k v = (k, v) :: t := by
        rw [mapSet_cons]; simp [hp]
      rw [hset]
      unfold countKey
      simp only [List.filter_cons]
      have h2 : (p.1 == k) = true := by simp [hp]
      simp [h2]
    · have hset : mapSet (p :: t) k v = p :: mapSet t k v := by
        rw [mapSet_cons]; simp [hp]
      rw [hset]
      unfold countKey at *
      simp only [List.filter_cons]
      have h2 : (p.1 == k) = false := by simp [hp]
      simp [h2, ih]

/-- Removal from an embedded `Set` removes the element. -/
theorem contains_setRemove (s : List Nat) (x : Nat) :
    (setRemove s x).contains x = false := by
  unfold setRemove
  induction s with
  | nil => rfl
  | cons y t ih =>
    rw [List.filter_cons]
    by_cases hy : y = x
    · simp [hy, ih]
    · have h1 : (y != x) = true := by simp [hy]
      simp only [h1, if_pos]
      rw [List.contains_cons]
      simp [hy, ih, Ne.symm hy]

/-- Removing a user from a channel's typing set means the user is no longer in
that channel's typing set. -/
theorem removeTyping_not_contains (t : List (Nat × List Nat)) (c u : Nat) :
    ((mapLookup (removeTyping t c u) c).getD []).contains u = false := by
  unfold removeTyping
  cases hl : mapLookup t c with
  | none => simp [hl]
  | some l =>
    simp only [hl]
    by_cases he : (setRemove l u).isEmpty
    · simp [he, mapLookup_mapDelete_self]
    · simp only [he, Bool.false_eq_true, if_false]
      rw [mapLookup_mapSet_self]
      simp only [Option.getD_some]
      exact contains_setRemove l u

/-- Removing a user from one channel's typing set never re-adds the user to
another channel's typing set. -/
theorem removeTyping_preserve (t : List (Nat × List Nat)) (c c' u : Nat)
    (h : ((mapLookup t c).getD []).contains u = false) :
    ((mapLookup (removeTyping t c' u) c).getD []).contains u = false := by
  by_cases hcc : c' = c
  · subst hcc; exact removeTyping_not_contains t c' u
  · unfold removeTyping
    cases hl : mapLookup t c' with
    | none => simpa using h
    | some l =>
      simp only [hl]
      by_cases he : (setRemove l u).isEmpty
      · simp only [he, if_pos]
        rw [mapLookup_mapDelete_other t c c' hcc]
        exact h
      · simp only [he, Bool.false_eq_true, if_false]
        rw [mapLookup_mapSet_other t c c' _ hcc]
        exact h

/-- Folding typing-set removals over a channel list keeps a user out of a
channel the user was already absent from. -/
theorem foldl_removeTyping_preserve (chans : List Nat)
    (t : List (Nat × List Nat)) (c u : Nat)
    (h : ((mapLookup t c).getD []).contains u = false) :
    ((mapLookup (chans.foldl (fun t2 x => removeTyping t2 x u) t) c).getD
      []).contains u = false := by
  induction chans generalizing t with
  | nil => simpa using h
  | cons x rest ih =>
    simp only [List.foldl_cons]
    exact ih _ (removeTyping_preserve t c x u h)

/-- Folding typing-set removals over a channel list removes the user from
every channel in the list. -/
theorem foldl_removeTyping_not_contains (chans : List Nat)
    (t : List (Nat × List Nat)) (c u : Nat) (hc : c ∈ chans) :
    ((mapLookup (chans.foldl (fun t2 x => removeTyping t2 x u) t) c).getD
      []).contains u = false := by
  induction chans generalizing t with
  | nil => cases hc
  | cons x rest ih =>
    simp only [List.foldl_cons]
    rcases List.mem_cons.mp hc with hx | hx
    · subst hx
      exact foldl_removeTyping_preserve rest _ c u
        (removeTyping_not_contains t c u)
    · exact ih _ hx

/-- Folding the connection handler over a handle list installs the last
handle, keeps exactly one registry entry for the identity, and closes
nothing. -/
theorem foldl_register_spec (members : List ChannelMember) (uid : Nat)
    (hs : List Nat) (hne : hs ≠ []) (s0 : WsState) :
    mapLookup (hs.foldl (fun s h => register members s uid h) s0).connectedUsers
        uid = some (hs.getLast hne) ∧
    countKey (hs.foldl (fun s h => register members s uid h) s0).connectedUsers
        uid = max 1 (countKey s0.connectedUsers uid) ∧
    (hs.foldl (fun s h => register members s uid h) s0).closedHandles
        = s0.closedHandles := by
  induction hs generalizing s0 with
  | nil => cases hne rfl
  | cons x rest ih =>
    by_cases hr : rest = []
    · subst hr
      simp only [List.foldl_cons, List.foldl_nil]
      refine ⟨?_, ?_, rfl⟩
      · show mapLookup (mapSet s0.connectedUsers uid x) uid = _
        rw [mapLookup_mapSet_self]
        rfl
      · show countKey (mapSet s0.connectedUsers uid x) uid = _
        exact countKey_mapSet _ _ _
    · have ihh := ih hr (register members s0 uid x)
      simp only [List.foldl_cons]
      refine ⟨?_, ?_, ?_⟩
      · rw [ihh.1]
        rw [List.getLast_cons hr]
      · rw [ihh.2.1]
        show max 1 (countKey (mapSet s0.connectedUsers uid x) uid) = _
        rw [countKey_mapSet]
        omega
      · rw [ihh.2.2]
        rfl

/-! Concrete fixtures used by witnesses and counterexamples. -/

/-- A plain unflagged, undeleted message with id 10 in channel 5, written by
user 1 at time 1000. -/
def msgW : Message :=
  { id := 10, channel_id := 5, user_id := 1, content := "hi"
    message_type := .text
    is_flagged := false, flag_reason := none, flagged_by := none
    flagged_at := none
    is_deleted := false, deleted_by := none, deleted_at := none
    reply_to := none, created_at := 1000, updated_at := 1000 }

/-- A public channel with id 5. -/
def chanW : List Channel := [{ id := 5, is_private := false }]

/-- C3: for a message edited by its author, `updateMessage` fails with the
edit-window error exactly when `now - created_at` exceeds 5 minutes
(300000 ms); in particular an edit at `created_at + 299000` (4:59) succeeds
and an edit at `created_at + 301000` (5:01) fails with the window error. -/
theorem edit_window_boundary (msgs : List Message) (messageId : Nat)
    (content : String) (userId : Nat) (now : Int) (m : Message)
    (hfind : findMessage msgs messageId = some m)
    (hauthor : m.user_id = userId) :
    (updateMessage msgs messageId content userId now
        = .error .windowExpired ↔ 300000 < now - m.created_at) ∧
    updateMessage msgs messageId content userId (m.created_at + 299000)
      = .ok { m with content := content, updated_at := m.created_at + 299000 } ∧
    updateMessage msgs messageId content userId (m.created_at + 301000)
      = .error .windowExpired := by
  unfold updateMessage
  rw [hfind]
  have hne : (m.user_id != userId) = false := by simp [hauthor]
  simp only [hne, Bool.false_eq_true, if_false]
  refine ⟨?_, ?_, ?_⟩
  · by_cases hlt : m.created_at < now - 5 * 60 * 1000
    · simp only [hlt, if_pos]
      constructor
      · intro _; omega
      · intro _; trivial
    · simp only [hlt, if_false]
      constructor
      · intro hcase; cases hcase
      · intro hgt; omega
  · have hlt : ¬ m.created_at < m.created_at + 299000 - 5 * 60 * 1000 := by omega
    simp only [hlt, if_false]
  · have hlt : m.created_at < m.created_at + 301000 - 5 * 60 * 1000 := by omega
    simp only [hlt, if_pos]

/-- Witness for C3 at the concrete message `msgW`. -/
theorem edit_window_boundary_witness :
    (updateMessage [msgW] 10 "x" 1 302000
        = .error .windowExpired ↔ 300000 < (302000 : Int) - msgW.created_at) ∧
    updateMessage [msgW] 10 "x" 1 (msgW.created_at + 299000)
      = .ok { msgW with content := "x", updated_at := msgW.created_at + 299000 } ∧
    updateMessage [msgW] 10 "x" 1 (msgW.created_at + 301000)
      = .error .windowExpired :=
  edit_window_boundary [msgW] 10 "x" 1 302000 msgW rfl rfl

/-- C5: when `sendMessage` is called with a `replyTo` argument (and the
channel/membership guards pass), a reply target that is absent or lives in a
different channel yields the invalid-reply error — in which case no `.ok`
result (and hence no extended collection) is produced — while a reply target
in the same channel passes the check and the message is created. -/
theorem send_reply_integrity (channels : List Channel)
    (members : List ChannelMember) (msgs : List Message)
    (channelId userId : Nat) (content : String) (rid newId : Nat)
    (mtype : MessageType) (now : Int) (channel : Channel)
    (hch : findChannel channels channelId = some channel)
    (hacc : (channel.is_private && !(isMember members channelId userId))
      = false) :
    (findMessage msgs rid = none →
      sendMessage channels members msgs channelId userId content (some rid)
        mtype newId now = .error .invalidReply) ∧
    (∀ rm, findMessage msgs rid = some rm → rm.channel_id ≠ channelId →
      sendMessage channels members msgs channelId userId content (some rid)
        mtype newId now = .error .invalidReply) ∧
    (∀ rm, findMessage msgs rid = some rm → rm.channel_id = channelId →
      ∃ nm, sendMessage channels members msgs channelId userId content
          (some rid) mtype newId now = .ok (msgs ++ [nm], nm) ∧
        nm.reply_to = some rid ∧ nm.channel_id = channelId) := by
  unfold sendMessage
  rw [hch]
  simp only [hacc, Bool.false_eq_true, if_false]
  refine ⟨?_, ?_, ?_⟩
  · intro hnone
    rw [hnone]
    simp
  · intro rm hsome hne
    rw [hsome]
    have : (rm.channel_id == channelId) = false := by simp [hne]
    simp [this]
  · intro rm hsome heq
    rw [hsome]
    have : (rm.channel_id == channelId) = true := by simp [heq]
    simp only [this, Bool.not_true, Bool.false_eq_true, if_false]
    exact ⟨_, rfl, rfl, rfl⟩

/-- Witness for C5: replying to the absent message 99 in channel 5 fails with
the invalid-reply error. -/
theorem send_reply_integrity_witness :
    sendMessage chanW [] [msgW] 5 1 "c" (some 99) .text 11 2000
      = .error .invalidReply :=
  (send_reply_integrity chanW [] [msgW] 5 1 "c" 99 11 .text 2000
    { id := 5, is_private := false } rfl rfl).1 rfl

/-- C8: two sequential `flagMessage` calls on the same message succeed exactly
once — the first sets the flag state with the given reason, flagger and
timestamp; the second fails with the already-flagged error and, since the
service throws before any `save`, produces no new collection state. -/
theorem flag_idempotent (msgs : List Message) (messageId : Nat)
    (r1 r2 : FlagReason) (u1 u2 : Nat) (t1 t2 : Int) (m : Message)
    (hfind : findMessage msgs messageId = some m)
    (hun : m.is_flagged = false) :
    flagMessage msgs messageId r1 u1 t1
        = .ok (saveMessage msgs (m.flagDoc r1 u1 t1)) ∧
    findMessage (saveMessage msgs (m.flagDoc r1 u1 t1)) messageId
        = some (m.flagDoc r1 u1 t1) ∧
    (m.flagDoc r1 u1 t1).is_flagged = true ∧
    (m.flagDoc r1 u1 t1).flag_reason = some r1 ∧
    (m.flagDoc r1 u1 t1).flagged_by = some u1 ∧
    (m.flagDoc r1 u1 t1).flagged_at = some t1 ∧
    flagMessage (saveMessage msgs (m.flagDoc r1 u1 t1)) messageId r2 u2 t2
        = .error .alreadyFlagged := by
  have hmid : m.id = messageId := by
    have := List.find?_some hfind
    simpa using this
  have hfind' : findMessage msgs m.id = some m := by rw [hmid]; exact hfind
  have hfind2 : findMessage (saveMessage msgs (m.flagDoc r1 u1 t1)) m.id
      = some (m.flagDoc r1 u1 t1) :=
    findMessage_saveMessage msgs m (m.flagDoc r1 u1 t1) hfind' rfl
  rw [hmid] at hfind2
  refine ⟨?_, hfind2, rfl, rfl, rfl, rfl, ?_⟩
  · unfold flagMessage
    rw [hfind]
    simp [hun]
  · unfold flagMessage
    rw [hfind2]
    simp [Message.flagDoc]

/-- Witness for C8 at the concrete message `msgW`. -/
theorem flag_idempotent_witness :
    flagMessage [msgW] 10 .spam 2 500
        = .ok (saveMessage [msgW] (msgW.flagDoc .spam 2 500)) ∧
    findMessage (saveMessage [msgW] (msgW.flagDoc .spam 2 500)) 10
        = some (msgW.flagDoc .spam 2 500) ∧
    (msgW.flagDoc .spam 2 500).is_flagged = true ∧
    (msgW.flagDoc .spam 2 500).flag_reason = some .spam ∧
    (msgW.flagDoc .spam 2 500).flagged_by = some 2 ∧
    (msgW.flagDoc .spam 2 500).flagged_at = some 500 ∧
    flagMessage (saveMessage [msgW] (msgW.flagDoc .spam 2 500)) 10 .other 3 600
        = .error .alreadyFlagged :=
  flag_idempotent [msgW] 10 .spam .other 2 3 500 600 msgW rfl rfl

/-- The front run of `c` has length at least `n` exactly when `n` copies of
`c` are a prefix. -/
theorem countRun_ge_iff (c : Char) (l : List Char) (n : Nat) :
    n ≤ countRun c l ↔ List.replicate n c <+: l := by
  induction l generalizing n with
  | nil =>
    unfold countRun
    constructor
    · intro h
      have hz : n = 0 := Nat.le_zero.mp h
      subst hz
      simp
    · intro h
      have hlen := h.length_le
      simpa using hlen
  | cons d t ih =>
    unfold countRun
    by_cases hd : d = c
    · subst hd
      simp only [beq_self_eq_true, if_true]
      cases n with
      | zero => simp
      | succ k =>
        rw [List.replicate_succ]
        constructor
        · intro h
          have hk : k ≤ countRun d t := by omega
          exact List.cons_prefix_cons.mpr ⟨rfl, (ih k).mp hk⟩
        · intro h
          rcases List.cons_prefix_cons.mp h with ⟨-, h2⟩
          have := (ih k).mpr h2
          omega
    · have hb : (d == c) = false := by simp [hd]
      simp only [hb, Bool.false_eq_true, if_false]
      cases n with
      | zero => simp
      | succ k =>
        rw [List.replicate_succ]
        constructor
        · intro h
          exact absurd h (by omega)
        · intro h
          rcases List.cons_prefix_cons.mp h with ⟨hcd, -⟩
          exact absurd hcd.symm hd

/-- The executable regex-match check agrees with the declarative statement
"some character the dot can match occurs 11 times in a row". -/
theorem hasRepeatedRun_iff (l : List Char) :
    hasRepeatedRun l = true ↔
      ∃ c, isLineTerminator c = false ∧ List.replicate 11 c <:+: l := by
  induction l with
  | nil =>
    constructor
    · intro h; simp [hasRepeatedRun] at h
    · rintro ⟨c, -, hc⟩
      rw [List.infix_nil] at hc
      exact absurd hc (by simp)
  | cons d t ih =>
    unfold hasRepeatedRun
    rw [Bool.or_eq_true, ih]
    constructor
    · rintro (h10 | ⟨c, hterm, hc⟩)
      · rw [Bool.and_eq_true] at h10
        refine ⟨d, by simpa using h10.1, ?_⟩
        have hpre : List.replicate 11 d <+: d :: t := by
          rw [List.replicate_succ]
          exact List.cons_prefix_cons.mpr
            ⟨rfl, (countRun_ge_iff d t 10).mp (by simpa using h10.2)⟩
        exact List.IsPrefix.isInfix hpre
      · exact ⟨c, hterm, List.infix_cons hc⟩
    · rintro ⟨c, hterm, hc⟩
      rcases List.infix_cons_iff.mp hc with hpre | hinf
      · left
        rw [List.replicate_succ] at hpre
        rcases List.cons_prefix_cons.mp hpre with ⟨hcd, h2⟩
        subst hcd
        rw [Bool.and_eq_true]
        refine ⟨by simpa using hterm, ?_⟩
        simpa using (countRun_ge_iff c t 10).mpr h2
      · right; exact ⟨c, hterm, hinf⟩

/-- Eleven consecutive newline characters. -/
def newlineRun : String := String.mk (List.replicate 11 (Char.ofNat 10))

/-- Counterexample to C7 as stated: `newlineRun` is a single character
repeated 11 times consecutively, yet `contentLengthValidation` passes it —
the dot in the regex `/(.)\1{10,}/` does not match line terminators, so a
newline run is not rejected with the repetition kind (nor at all). -/
theorem repetition_newline_cex :
    contentLengthValidation newlineRun = .pass ∧
    newlineRun.toList = List.replicate 11 (Char.ofNat 10) :=
  ⟨rfl, rfl⟩

/-- C7 amended: the Joi `validateMessage` rule rejects trimmed content longer
than 2000 characters with its length error, and the
`contentLengthValidation` moderation filter rejects over-long content with
the length kind and otherwise rejects exactly the content containing a
single character that is not a line terminator repeated 11 or more times
consecutively with the distinct repetition kind (the dot of `(.)\1{10,}`
does not match line terminators). -/
theorem content_length_repetition_checks (content : String) :
    (validateMessageContent content = .contentTooLong ↔
      2000 < content.trim.length) ∧
    (contentLengthValidation content = .lengthExceeded ↔
      2000 < content.length) ∧
    (contentLengthValidation content = .repeatedChars ↔
      content.length ≤ 2000 ∧
      ∃ c, isLineTerminator c = false ∧
        List.replicate 11 c <:+: content.toList) ∧
    ModerationVerdict.lengthExceeded ≠ ModerationVerdict.repeatedChars := by
  refine ⟨?_, ?_, ?_, by decide⟩
  · unfold validateMessageContent
    by_cases h1 : content.trim.length < 1
    · simp only [h1, if_true]
      constructor
      · intro hh; cases hh
      · intro hh; omega
    · simp only [h1, if_false]
      by_cases h2 : 2000 < content.trim.length
      · simp [h2]
      · simp [h2]
  · unfold contentLengthValidation
    by_cases h2 : 2000 < content.length
    · rw [if_pos h2]
      simp [h2]
    · rw [if_neg h2]
      constructor
      · intro hh
        by_cases h3 : hasRepeatedRun content.toList = true
        · rw [if_pos h3] at hh; cases hh
        · rw [if_neg h3] at hh; cases hh
      · intro hh; exact absurd hh h2
  · unfold contentLengthValidation
    by_cases h2 : 2000 < content.length
    · rw [if_pos h2]
      constructor
      · intro hh; cases hh
      · rintro ⟨hle, -⟩; omega
    · rw [if_neg h2]
      by_cases h3 : hasRepeatedRun content.toList = true
      · rw [if_pos h3]
        constructor
        · intro _
          exact ⟨by omega, (hasRepeatedRun_iff content.toList).mp h3⟩
        · intro _; rfl
      · rw [if_neg h3]
        constructor
        · intro hh; cases hh
        · rintro ⟨-, c, hterm, hc⟩
          exact absurd
            ((hasRepeatedRun_iff content.toList).mpr ⟨c, hterm, hc⟩) h3

/-- Membership in the insertion step of the newest-first sort. -/
theorem mem_insertDesc (m x : Message) (l : List Message) :
    x ∈ insertDesc m l ↔ x = m ∨ x ∈ l := by
  induction l with
  | nil => simp [insertDesc]
  | cons y t ih =>
    unfold insertDesc
    by_cases hy : y.created_at ≤ m.created_at
    · simp [hy]
    · simp only [hy, if_false, List.mem_cons, ih]
      tauto

/-- Membership is preserved by the newest-first sort. -/
theorem mem_sortDesc (x : Message) (l : List Message) :
    x ∈ sortDesc l ↔ x ∈ l := by
  induction l with
  | nil => simp [sortDesc]
  | cons y t ih =>
    unfold sortDesc
    rw [mem_insertDesc, ih, List.mem_cons]

/-- Membership in a pagination window implies membership in the list. -/
theorem mem_of_paginate (page limit : Nat) (l : List Message) (x : Message)
    (h : x ∈ paginate page limit l) : x ∈ l :=
  List.mem_of_mem_drop (List.mem_of_mem_take h)

/-- Every element of a paginated, sorted filter result satisfies any
consequence of the filter predicate. -/
theorem all_paginate_sort_filter (p q : Message → Bool) (l : List Message)
    (hpq : ∀ m, p m = true → q m = true) (page limit : Nat) :
    ((paginate page limit (sortDesc (l.filter p))).all q) = true := by
  rw [List.all_eq_true]
  intro m hm
  have hm1 : m ∈ sortDesc (l.filter p) := mem_of_paginate page limit _ m hm
  have hm2 : m ∈ l.filter p := (mem_sortDesc m _).mp hm1
  exact hpq m (List.of_mem_filter hm2)

/-- A soft-deleted message fixture (id 11 in channel 5). -/
def msgDel : Message := { msgW with id := 11, is_deleted := true }

/-- C9: every message in a successful channel-history listing and in a
successful search result has `is_deleted = false`, while `getMessageById`
has no such filter: it returns the soft-deleted `msgDel` as-is. -/
theorem listings_exclude_deleted (channels : List Channel)
    (members : List ChannelMember) (msgs : List Message)
    (channelId userId : Nat) (query : String) (page limit : Nat)
    (out1 out2 : List Message)
    (h1 : getChannelMessages channels members msgs channelId userId page limit
      = .ok out1)
    (h2 : searchMessages channels members msgs channelId userId query page
      limit = .ok out2) :
    out1.all (fun m => m.is_deleted == false) = true ∧
    out2.all (fun m => m.is_deleted == false) = true ∧
    getMessageById chanW [] [msgDel] 11 1 = .ok msgDel ∧
    msgDel.is_deleted = true := by
  refine ⟨?_, ?_, rfl, rfl⟩
  · unfold getChannelMessages at h1
    split at h1
    · cases h1
    · split at h1
      · cases h1
      · injection h1 with hout
        rw [← hout]
        apply all_paginate_sort_filter
        intro m hp
        simp only [Bool.and_eq_true] at hp
        exact hp.2
  · unfold searchMessages at h2
    split at h2
    · cases h2
    · split at h2
      · cases h2
      · split at h2
        · cases h2
        · injection h2 with hout
          rw [← hout]
          apply all_paginate_sort_filter
          intro m hp
          simp only [Bool.and_eq_true] at hp
          exact hp.2

/-- Witness for C9 at a concrete collection holding one live and one deleted
message. -/
theorem listings_exclude_deleted_witness :
    ([msgW].all (fun m => m.is_deleted == false)) = true ∧
    ([msgW].all (fun m => m.is_deleted == false)) = true ∧
    getMessageById chanW [] [msgDel] 11 1 = .ok msgDel ∧
    msgDel.is_deleted = true :=
  listings_exclude_deleted chanW [] [msgW, msgDel] 5 1 "h" 1 50 [msgW] [msgW]
    rfl rfl

/-- The unique compound index `{channel_id: 1, user_id: 1}` of the membership
collection: no two records share a channel/user pair. -/
def uniqueMembership (members : List ChannelMember) : Prop :=
  members.Pairwise
    (fun a b => ¬(a.channel_id = b.channel_id ∧ a.user_id = b.user_id))

/-- Under the unique index, `findOne` returns exactly the active record of
the pair when one exists. -/
theorem findActiveMember_of_unique (members : List ChannelMember)
    (channelId userId : Nat) (huniq : uniqueMembership members)
    (m : ChannelMember) (hm : m ∈ members) (hc : m.channel_id = channelId)
    (hu : m.user_id = userId) (ha : m.is_active = true) :
    findActiveMember members channelId userId = some m := by
  induction members with
  | nil => cases hm
  | cons x t ih =>
    rcases List.mem_cons.mp hm with hx | hx
    · subst hx
      unfold findActiveMember
      apply List.find?_cons_of_pos
      simp [hc, hu, ha]
    · have hpair := (List.pairwise_cons.mp huniq).1 m hx
      have hxp : (x.channel_id == channelId && x.user_id == userId
          && x.is_active) = false := by
        by_cases hcx : x.channel_id = channelId
        · by_cases hux : x.user_id = userId
          · exact absurd ⟨by rw [hcx, hc], by rw [hux, hu]⟩ hpair
          · simp [hux]
        · simp [hcx]
      unfold findActiveMember at *
      rw [List.find?_cons_of_neg _ (by simp [hxp])]
      exact ih (List.pairwise_cons.mp huniq).2 hx

/-- C10: under the membership collection's unique channel/user index,
`hasRole` returns true exactly when the user has an active membership record
in the channel whose role rank is at least the required rank under
member < moderator < admin; consequently a channel admin passes every
moderator check. -/
theorem hasRole_spec (members : List ChannelMember) (channelId userId : Nat)
    (req : Role) (huniq : uniqueMembership members) :
    (hasRole members channelId userId req = true ↔
      ∃ m, m ∈ members ∧ m.channel_id = channelId ∧ m.user_id = userId ∧
        m.is_active = true ∧ roleHierarchy req ≤ roleHierarchy m.role) ∧
    (hasRole members channelId userId .admin = true →
      hasRole members channelId userId .moderator = true) := by
  constructor
  · constructor
    · intro h
      unfold hasRole at h
      cases hf : findActiveMember members channelId userId with
      | none => rw [hf] at h; cases h
      | some m =>
        rw [hf] at h
        have hmem := List.mem_of_find?_eq_some hf
        have hp := List.find?_some hf
        simp only [Bool.and_eq_true, beq_iff_eq] at hp
        refine ⟨m, hmem, hp.1.1, hp.1.2, hp.2, ?_⟩
        simpa using h
    · rintro ⟨m, hm, hc, hu, ha, hrole⟩
      unfold hasRole
      rw [findActiveMember_of_unique members channelId userId huniq m hm hc
        hu ha]
      simpa using hrole
  · unfold hasRole
    cases hf : findActiveMember members channelId userId with
    | none => intro h; cases h
    | some m =>
      intro h
      have h3 : roleHierarchy .admin ≤ roleHierarchy m.role := by simpa using h
      have h2 : roleHierarchy .moderator ≤ roleHierarchy m.role :=
        le_trans (by decide) h3
      simpa using h2

/-- An active channel-admin membership record for channel 5, user 2. -/
def adminMember : ChannelMember :=
  { channel_id := 5, user_id := 2, role := .admin, is_active := true }

/-- Witness for C10: an active channel admin passes the moderator check. -/
theorem hasRole_spec_witness :
    hasRole [adminMember] 5 2 .moderator = true :=
  (hasRole_spec [adminMember] 5 2 .member
    (by simp [uniqueMembership])).2 rfl

/-! Claim C1 fixtures: a flagged message and a plain (non-moderator) user. -/

/-- A flagged message with id 10. -/
def flaggedMsg : Message :=
  { msgW with
    is_flagged := true,
    flag_reason := some .spam,
    flagged_by := some 3,
    flagged_at := some 900 }

/-- An acting user with the plain global role. -/
def plainUser : User := { id := 2, role := .user }

/-- Counterexample to C1 as stated: on the HTTP ingress path the unflag
operation succeeds for an actor whose global role is neither moderator nor
admin (the controller passes no actor to the service, which performs no role
check), instead of returning a forbidden error. -/
theorem unflag_no_role_check_cex :
    unflagMessageHttp plainUser [flaggedMsg] 10
        = .ok (saveMessage [flaggedMsg] flaggedMsg.unflagDoc) ∧
    plainUser.role ≠ .moderator ∧ plainUser.role ≠ .admin := by
  refine ⟨rfl, by decide, by decide⟩

/-- C1 amended: the moderator/admin requirement exists only on the websocket
ingress (`unflag_message` handler); the HTTP ingress `unflagMessage` service
operation takes no actor and performs no role check, while the flag-state
requirement holds on both paths: absent message gives the not-found error,
unflagged message gives the invalid-state error, flagged message is
unflagged. -/
theorem unflag_amended (actor : User) (msgs : List Message)
    (messageId : Nat) :
    (actor.role ≠ .moderator → actor.role ≠ .admin →
      wsUnflagMessage actor msgs messageId = .error .moderatorRequired) ∧
    unflagMessageHttp actor msgs messageId = unflagMessage msgs messageId ∧
    (findMessage msgs messageId = none →
      unflagMessage msgs messageId = .error .messageNotFound) ∧
    (∀ m, findMessage msgs messageId = some m → m.is_flagged = false →
      unflagMessage msgs messageId = .error .notFlagged) ∧
    (∀ m, findMessage msgs messageId = some m → m.is_flagged = true →
      unflagMessage msgs messageId = .ok (saveMessage msgs m.unflagDoc)) := by
  refine ⟨?_, rfl, ?_, ?_, ?_⟩
  · intro h1 h2
    unfold wsUnflagMessage
    have hb : (actor.role != UserRole.moderator
        && actor.role != UserRole.admin) = true := by
      simp [h1, h2]
    rw [if_pos hb]
  · intro hnone
    unfold unflagMessage
    rw [hnone]
  · intro m hsome hflag
    unfold unflagMessage
    rw [hsome]
    simp [hflag]
  · intro m hsome hflag
    unfold unflagMessage
    rw [hsome]
    simp [hflag]

/-- Witness for the amended C1: the plain user is rejected on the websocket
path while the service path unflags the flagged message. -/
theorem unflag_amended_witness :
    wsUnflagMessage plainUser [flaggedMsg] 10 = .error .moderatorRequired ∧
    unflagMessage [flaggedMsg] 10
      = .ok (saveMessage [flaggedMsg] flaggedMsg.unflagDoc) := by
  have h := unflag_amended plainUser [flaggedMsg] 10
  exact ⟨h.1 (by decide) (by decide), h.2.2.2.2 flaggedMsg rfl rfl⟩

/-! Claim C2 fixtures. -/

/-- A soft-deleted message with id 12 authored by user 1. -/
def deletedMsg : Message :=
  { msgW with
    id := 12,
    is_deleted := true,
    deleted_by := some 1,
    deleted_at := some 1500 }

/-- C2 at its failing inputs: the `deleteMessage` service hardcodes
`isModerator = false` (source comment: "This should come from user
context"), so an actor who is not the author and holds no channel role is
rejected even when the actor's global role is moderator or admin — the
global role is never consulted; and `restoreMessage` applies no
authorization at all: an arbitrary non-author, non-moderator user restores
a soft-deleted message successfully. -/
theorem delete_restore_auth_gap :
    deleteMessage [] [msgW] 10 2 3000 = .error .forbiddenDelete ∧
    restoreMessage [deletedMsg] 12 99
      = .ok (saveMessage [deletedMsg] deletedMsg.restoreDoc) := by
  exact ⟨rfl, rfl⟩

/-- Counterexample to C4 as stated: after two handshakes for identity 1 (with
handles 100 then 200) the registry maps the identity to the latest handle,
but the set of transport-closed handles is empty — the replaced handle 100
was never closed, so it is not true that each prior connection handle was
transport-closed at the moment it was replaced. -/
theorem single_session_cex :
    (wsRun [] [.connect 1 100, .connect 1 200]).connectedUsers = [(1, 200)] ∧
    (wsRun [] [.connect 1 100, .connect 1 200]).closedHandles = [] :=
  ⟨rfl, rfl⟩

/-- C4 amended: after any nonempty sequence of handshakes for one identity,
the `connectedUsers` registry holds exactly one entry for that identity,
mapping it to the latest connection handle; the prior handles are merely
overwritten in the map and none is transport-closed. -/
theorem session_registry_overwrite (members : List ChannelMember) (uid : Nat)
    (hs : List Nat) (hne : hs ≠ []) :
    mapLookup (wsRun members
        (hs.map (fun h => WsEvent.connect uid h))).connectedUsers uid
      = some (hs.getLast hne) ∧
    countKey (wsRun members
        (hs.map (fun h => WsEvent.connect uid h))).connectedUsers uid = 1 ∧
    (wsRun members (hs.map (fun h => WsEvent.connect uid h))).closedHandles
      = [] := by
  have hfold : wsRun members (hs.map (fun h => WsEvent.connect uid h))
      = hs.foldl (fun s h => register members s uid h) WsState.empty := by
    unfold wsRun
    rw [List.foldl_map]
    rfl
  rw [hfold]
  have hspec := foldl_register_spec members uid hs hne WsState.empty
  refine ⟨hspec.1, ?_, hspec.2.2⟩
  rw [hspec.2.1]
  rfl

/-- Witness for the amended C4 at the concrete handle sequence 100, 200. -/
theorem session_registry_overwrite_witness :
    mapLookup (wsRun []
        ([100, 200].map (fun h => WsEvent.connect 1 h))).connectedUsers 1
      = some 200 ∧
    countKey (wsRun []
        ([100, 200].map (fun h => WsEvent.connect 1 h))).connectedUsers 1
      = 1 ∧
    (wsRun [] ([100, 200].map (fun h => WsEvent.connect 1 h))).closedHandles
      = [] := by
  have h := session_registry_overwrite [] 1 [100, 200] (by decide)
  exact ⟨h.1, h.2.1, h.2.2⟩

/-- A single active plain membership of user 1 in channel 5. -/
def memberC6 : List ChannelMember :=
  [{ channel_id := 5, user_id := 1, role := .member, is_active := true }]

/-- Counterexample to C6 as stated: in the reachable state produced by
connecting user 1 (auto-subscribed to channel 5), starting to type in
channel 5, and then leaving channel 5, the user is still present in channel
5's typing set although the user no longer holds a subscription to that
channel — the `leave_channel` handler does not purge the typing entry. -/
theorem typing_invariant_cex :
    ((typingOf (wsRun memberC6 [.connect 1 100, .typingStart 1 5,
      .leaveChannel 1 5]) 5).contains 1) = true ∧
    (((mapLookup (wsRun memberC6 [.connect 1 100, .typingStart 1 5,
      .leaveChannel 1 5]).userChannels 1).getD []).contains 5) = false :=
  ⟨rfl, rfl⟩

/-- C6 amended: typing entries are only inserted while the user holds a
subscription (`typing_start` is a no-op otherwise), and they are removed on
explicit stop, on message send to the channel, and on disconnect (for every
channel the user was subscribed to at disconnect time); but leaving a
channel does not remove the typing entry, so the typing-implies-subscribed
invariant does not survive `leave_channel`. -/
theorem typing_maintenance (members : List ChannelMember) (s : WsState)
    (u c : Nat) :
    (((mapLookup s.userChannels u).getD []).contains c = false →
      wsStep members s (.typingStart u c) = s) ∧
    (typingOf (wsStep members s (.typingStop u c)) c).contains u = false ∧
    (isMember members c u = true →
      (typingOf (wsStep members s (.newMessage u c)) c).contains u
        = false) ∧
    (((mapLookup s.userChannels u).getD []).contains c = true →
      (typingOf (wsStep members s (.disconnect u)) c).contains u = false) := by
  refine ⟨?_, ?_, ?_, ?_⟩
  · intro hns
    simp only [wsStep]
    cases hl : mapLookup s.userChannels u with
    | none => rfl
    | some chans =>
      have hcc : chans.contains c = false := by
        rw [hl] at hns
        simpa using hns
      simp [hcc]
      intro hmem
      exact absurd hmem (by simpa using hcc)
  · exact removeTyping_not_contains s.typingUsers c u
  · intro hm
    simp only [wsStep]
    rw [if_pos hm]
    exact removeTyping_not_contains s.typingUsers c u
  · intro hc
    simp only [wsStep, typingOf]
    apply foldl_removeTyping_not_contains
    simpa using hc

/-- Witness for the amended C6: disconnecting the typing user removes the
typing entry of the subscribed channel. -/
theorem typing_maintenance_witness :
    (typingOf (wsStep memberC6
      (wsRun memberC6 [.connect 1 100, .typingStart 1 5])
      (.disconnect 1)) 5).contains 1 = false := by
  have h := typing_maintenance memberC6
    (wsRun memberC6 [.connect 1 100, .typingStart 1 5]) 1 5
  exact h.2.2.2 rfl

end Chat
